import Mathlib

/-!
Formal model of the autoInx serverless admin-configuration layer:
the CIDR matcher, the config store accessor, the admin identity
verification gates, the public/admin config endpoints and the
scheduled chat-widget toggle job, together with theorems checking the
specification's claims against the code.

JavaScript semantics are embedded shallowly:
* JS strings are Lean `String`s; string algorithms run on `String.data`
  (lists of characters, compared by code point, which agrees with JS
  UTF-16 code-unit comparison on all characters appearing here).
* JS numbers appearing in the modelled code are integer-valued except
  for `NaN`; a possibly-`NaN` number is an `Option Int` (`none` = NaN).
  The 32-bit coercions `ToInt32`/`ToUint32` of ECMA-262 are explicit.
* `undefined`/missing object fields are `Option`s; a thrown exception
  that the modelled code does not catch is `Except.error ()`.
-/

/-- Characters treated as whitespace by JS `String.prototype.trim`
(ASCII whitespace plus NBSP and the BOM; other Unicode space
characters do not occur in the modelled data). -/
def isJsWs (c : Char) : Bool :=
  c = ' ' || c = '\t' || c = '\n' || c = '\r' ||
  c = '\x0b' || c = '\x0c' || c = ' ' || c = '﻿'

/-- JS `trim`: drop whitespace from both ends. -/
def jsTrimL (l : List Char) : List Char :=
  ((l.dropWhile isJsWs).reverse.dropWhile isJsWs).reverse

/-- JS `split` with a single-character separator (`'a.b'.split('.')`).
`""` splits to `[""]`, and separators at the ends produce empty pieces,
exactly as in JS. -/
def splitOnChar (sep : Char) : List Char → List (List Char)
  | [] => [[]]
  | c :: rest =>
    let r := splitOnChar sep rest
    if c = sep then [] :: r
    else
      match r with
      | [] => [[c]]
      | h :: t => (c :: h) :: t

/-- Decimal digit test (`'0'..'9'`). -/
def isDig (c : Char) : Bool := 48 ≤ c.toNat && c.toNat ≤ 57

/-- Hexadecimal digit test. -/
def isHexDig (c : Char) : Bool :=
  isDig c || (97 ≤ c.toNat && c.toNat ≤ 102) || (65 ≤ c.toNat && c.toNat ≤ 70)

/-- Numeric value of a decimal digit string (most significant first). -/
def decVal (l : List Char) : Nat := l.foldl (fun a c => 10 * a + (c.toNat - 48)) 0

/-- Numeric value of a hex digit string. -/
def hexVal (l : List Char) : Nat :=
  l.foldl (fun a c =>
    16 * a + (if c.toNat ≤ 57 then c.toNat - 48
              else if c.toNat ≤ 70 then c.toNat - 55 else c.toNat - 87)) 0

/-- Unsigned part of JS `parseInt` with no explicit radix: an optional
`0x`/`0X` selects base 16, otherwise the longest leading run of decimal
digits is taken; no digits at all gives NaN (`none`).  (JS returns a
float, so values of more than 15-16 digits would be rounded; all inputs
reached in this development are exact.) -/
def jsParseIntCore (s : List Char) : Option Int :=
  if s.head? = some '0' ∧ ((s.drop 1).head? = some 'x' ∨ (s.drop 1).head? = some 'X') then
    let ds := (s.drop 2).takeWhile isHexDig
    if ds.isEmpty then none else some (hexVal ds : Nat)
  else
    let ds := s.takeWhile isDig
    if ds.isEmpty then none else some (decVal ds : Nat)

/-- JS `parseInt(s)`: leading whitespace is skipped and an optional
sign is honoured. -/
def jsParseInt (s : List Char) : Option Int :=
  let t := s.dropWhile isJsWs
  if t.head? = some '+' then jsParseIntCore (t.drop 1)
  else if t.head? = some '-' then (jsParseIntCore (t.drop 1)).map (fun v => -v)
  else jsParseIntCore t

/-- ECMA-262 `ToInt32` restricted to integral inputs. -/
def toInt32 (x : Int) : Int :=
  if x % 4294967296 < 2147483648 then x % 4294967296
  else x % 4294967296 - 4294967296

/-- `ToInt32` of a possibly-NaN number (`ToInt32(NaN) = 0`). -/
def numToInt32 : Option Int → Int
  | none => 0
  | some x => toInt32 x

/-- JS `x >>> 0` (`ToUint32`) of a possibly-NaN number, as a `Nat`. -/
def numToUint32 : Option Int → Nat
  | none => 0
  | some x => (x % 4294967296).toNat

/-- JS 32-bit bitwise AND: both operands are folded to 32 bits, the AND
is taken on the unsigned representations and the result is read back as
a signed 32-bit integer. -/
def jsBitAnd (a b : Int) : Int :=
  toInt32 (((a % 4294967296).toNat &&& (b % 4294967296).toNat : Nat) : Int)

/-- Value of `~(Math.pow(2, 32 - bits) - 1)` where `bits` is the result
of `parseInt` (`none` = NaN).  `Math.pow` works on floats, so each range
of exponents is folded through the IEEE-754 behaviour it produces:
* NaN exponent: `NaN - 1 = NaN`, `~NaN = -1`;
* `32 - bits ≤ -54`: `2^k - 1` is exactly `-1.0` — below `-1074` the
  power underflows to `0` and `0 - 1 = -1`, and from `-1074` to `-54`
  the power is at most half an ulp of `-1`, so the subtraction rounds
  to `-1.0` (ties-to-even at `k = -54`); `~(-1) = 0`;
* `-53 ≤ 32 - bits < 0`: the power is at least `2^-53`, so `2^k - 1`
  is a representable value in `(-1, 0)` that truncates to `0` under
  `ToInt32`, and `~0 = -1`;
* `0 ≤ 32 - bits ≤ 53`: `2^k - 1` is an exactly representable integer;
* `32 - bits ≥ 54`: `2^k - 1` rounds up to `2^k` (ties-to-even at
  `k = 54`), whose low 32 bits are zero, and `Infinity` also coerces to
  `0`; either way the mask is `~0 = -1`. -/
def jsMask : Option Int → Int
  | none => -1
  | some b =>
    let k := 32 - b
    if k ≤ -54 then 0
    else if k < 0 then -1
    else if k ≤ 53 then -(toInt32 (2 ^ k.toNat - 1)) - 1
    else -1

/-- The accumulator step of
`cleanIp.split('.').reduce((a, b) => (a << 8) + parseInt(b), 0)`:
`a << 8` coerces NaN to `0` and wraps at 32 bits, and adding a NaN
octet poisons the accumulator. -/
def ipStep (acc : Option Int) (b : List Char) : Option Int :=
  match jsParseInt b with
  | none => none
  | some v => some (toInt32 (numToInt32 acc * 256) + v)

/-- The whole reduce over the split address. -/
def ipFold (parts : List (List Char)) : Option Int := parts.foldl ipStep (some 0)

/-- `ipInSubnet` from `src/netlify/functions/getPublicConfig.js`
(lines 91-107), on character lists.  Nothing in the `try` block can
throw, so the function is total. -/
def ipInSubnetL (ip subnet : List Char) : Bool :=
  if subnet.isEmpty || ip.isEmpty then false
  else
    let cleanIp := jsTrimL ip
    let cleanSubnet := jsTrimL subnet
    if ¬ cleanSubnet.contains '/' then cleanIp == cleanSubnet
    else
      let parts := splitOnChar '/' cleanSubnet
      let range := parts.headD []
      let bits := parts.getD 1 []
      let mask := jsMask (jsParseInt bits)
      let ipInt := (numToUint32 (ipFold (splitOnChar '.' cleanIp)) : Int)
      let rangeInt := (numToUint32 (ipFold (splitOnChar '.' range)) : Int)
      jsBitAnd ipInt mask == jsBitAnd rangeInt mask

/-- `ipInSubnet(ip, subnet)` — the CIDR matcher. -/
def ipInSubnet (ip subnet : String) : Bool := ipInSubnetL ip.data subnet.data

/-- The unsigned 32-bit big-endian encoding of a dotted quad
(most significant octet first), as the specification describes it. -/
def dottedQuadVal (a b c d : Nat) : Nat := ((a * 256 + b) * 256 + c) * 256 + d

/-- A well-formed octet component: a non-empty decimal-digit string
whose value is `a ≤ 255`. -/
def octet (s : List Char) (a : Nat) : Prop :=
  s ≠ [] ∧ (∀ c ∈ s, isDig c = true) ∧ decVal s = a ∧ a ≤ 255

instance (s : List Char) (a : Nat) : Decidable (octet s a) := by
  unfold octet
  infer_instance

/-- JS string comparison (`<`, `>=` on strings): lexicographic by
code unit. -/
def jsStrLtL : List Char → List Char → Bool
  | [], [] => false
  | [], _ :: _ => true
  | _ :: _, [] => false
  | a :: as, b :: bs =>
    if a.toNat < b.toNat then true
    else if b.toNat < a.toNat then false
    else jsStrLtL as bs

/-- JS `a < b` on strings. -/
def jsStrLt (a b : String) : Bool := jsStrLtL a.data b.data

/-- JS `s.replace(c, '')` with a one-character string pattern: only the
first occurrence is removed. -/
def removeFirst (c : Char) : List Char → List Char
  | [] => []
  | x :: r => if x = c then r else x :: removeFirst c r

/-- Split off everything before the first occurrence of `sep` (a
substring): `some (before, after)` or `none` when `sep` does not
occur. -/
def splitFirst (sep : List Char) : List Char → Option (List Char × List Char)
  | [] => none
  | c :: rest =>
    if sep.isPrefixOf (c :: rest) then some ([], (c :: rest).drop sep.length)
    else
      match splitFirst sep rest with
      | none => none
      | some (b, a) => some (c :: b, a)

/-- JS `s.split(sep)[1]` for a substring separator: the text between
the first and second occurrences of `sep` (or everything after the
first occurrence if there is no second one); `[]` stands for the
`undefined` produced when `sep` does not occur at all. -/
def jsSplitSecond (sep s : List Char) : List Char :=
  match splitFirst sep s with
  | none => []
  | some (_, a) =>
    match splitFirst sep a with
    | none => a
    | some (b, _) => b

/-- `authHeader.split('Bearer ')[1]` — the token part of a checked
authorization header. -/
def extractBearer (h : String) : String := ⟨jsSplitSecond "Bearer ".data h.data⟩

/-- `authHeader.startsWith('Bearer ')`. -/
def hasBearer (h : String) : Bool := "Bearer ".data.isPrefixOf h.data

/-! ### JSON values and Firestore documents -/

/-- Parsed JSON values (request bodies, stored fields).  JSON numbers
occurring in the modelled flows are integral, so they are carried as
`Int`; `stamp` is the Firestore `FieldValue.serverTimestamp()` sentinel
that handlers attach to writes.  Object field lists are key-distinct,
as produced by `JSON.parse`. -/
inductive JVal where
  | null
  | bool (b : Bool)
  | num (n : Int)
  | str (s : String)
  | arr (elems : List JVal)
  | obj (fields : List (String × JVal))
  | stamp

/-- JS truthiness of a parsed value. -/
def jsTruthy : JVal → Bool
  | .null => false
  | .bool b => b
  | .num n => n != 0
  | .str s => s != ""
  | .arr _ => true
  | .obj _ => true
  | .stamp => true

/-- `Object.keys(v)` (for a string, the element indices — scalar
values have no own enumerable keys). -/
def jsObjectKeys : JVal → List String
  | .obj fs => fs.map (fun p => p.1)
  | .str s => (List.range s.length).map toString
  | .arr es => (List.range es.length).map toString
  | _ => []

/-- `v.hasOwnProperty(k)`. -/
def jsHasOwn (v : JVal) (k : String) : Bool :=
  match v with
  | .obj fs => fs.any (fun p => p.1 == k)
  | .str s => (List.range s.length).any (fun i => toString i == k)
  | .arr es => (List.range es.length).any (fun i => toString i == k)
  | _ => false

/-- `v[k]` on an object (the flows modelled here only read fields whose
presence was established with `hasOwnProperty`). -/
def jsGetField (v : JVal) (k : String) : JVal :=
  match v with
  | .obj fs =>
    match fs.find? (fun p => p.1 == k) with
    | some p => p.2
    | none => .null
  | _ => .null

/-- JS property assignment `v[k] = w` on an object: overwrite in place
or append. -/
def jsObjSet (fs : List (String × JVal)) (k : String) (w : JVal) : List (String × JVal) :=
  if fs.any (fun p => p.1 == k) then
    fs.map (fun p => if p.1 == k then (k, w) else p)
  else fs ++ [(k, w)]

/-- The `chatSchedule` map of the stored configuration; each field may
be absent. -/
structure ChatSchedule where
  enableTime : Option String
  disableTime : Option String
  activeDays : Option (List Int)
deriving DecidableEq

/-- The singleton `admin/config` Firestore document.  A `none` field is
absent from the document; `lastUpdated := some ()` records that the
server-timestamp sentinel was written. -/
structure ConfigData where
  maintenanceMode : Option Bool := none
  chatWidgetEnabled : Option Bool := none
  ipWhitelist : Option (List String) := none
  chatSchedule : Option ChatSchedule := none
  lastUpdated : Option Unit := none
  lastUpdateAction : Option String := none
deriving DecidableEq

/-- Firestore `set(patch, {merge: true})` on the config document:
fields present in the patch overwrite, absent fields are kept.  (The
patches produced by the modelled handlers contain no nested maps, so
top-level merging is exact.) -/
def mergeConfig (old patch : ConfigData) : ConfigData where
  maintenanceMode := match patch.maintenanceMode with
    | some v => some v
    | none => old.maintenanceMode
  chatWidgetEnabled := match patch.chatWidgetEnabled with
    | some v => some v
    | none => old.chatWidgetEnabled
  ipWhitelist := match patch.ipWhitelist with
    | some v => some v
    | none => old.ipWhitelist
  chatSchedule := match patch.chatSchedule with
    | some v => some v
    | none => old.chatSchedule
  lastUpdated := match patch.lastUpdated with
    | some v => some v
    | none => old.lastUpdated
  lastUpdateAction := match patch.lastUpdateAction with
    | some v => some v
    | none => old.lastUpdateAction

/-! ### Admin identity verification -/

/-- The claims object returned by the identity provider for a valid
token: the custom `admin` claim (an arbitrary JSON value) and the
subject's email. -/
structure DecodedToken where
  admin : JVal
  email : String

/-- Outcome of `admin.auth().verifyIdToken(token)` — the identity
provider is an external collaborator, so each handler is parametrised
by it; `invalid` is the thrown invalid/expired-token rejection. -/
inductive VerifyResult where
  | valid (t : DecodedToken)
  | invalid

/-! ### GET /admin-config — `src/netlify/functions/getAdminConfig.js`
(first, authenticated variant) -/

namespace GetAdminConfig

/-- Response of the admin-config GET handler: HTTP status, the JSON
body when a configuration is returned, and the full-document
(non-merge) `set` performed when the config is initialised. -/
structure Out where
  status : Nat
  body : Option ConfigData := none
  write : Option ConfigData := none
deriving DecidableEq

/-- The `initialConfig` written when the document does not exist. -/
def initialConfig : ConfigData :=
  { ipWhitelist := some ["127.0.0.1"]
    maintenanceMode := some false
    chatWidgetEnabled := some true
    lastUpdated := some () }

/-- `handler` of `getAdminConfig.js` (lines 34-97).  `verify` is the
identity provider, `authorization` the request header, `store` the
result of `configRef.get()` (`Except.error` = the read threw). -/
def handler (verify : String → VerifyResult) (authorization : Option String)
    (store : Except Unit (Option ConfigData)) : Out :=
  match authorization with
  | none => ⟨401, none, none⟩
  | some h =>
    if ¬ hasBearer h then ⟨401, none, none⟩
    else
      match verify (extractBearer h) with
      | .invalid => ⟨401, none, none⟩
      | .valid t =>
        match t.admin with
        | .bool true =>
          match store with
          | .error _ => ⟨500, none, none⟩
          | .ok none => ⟨200, some initialConfig, some initialConfig⟩
          | .ok (some d) =>
            ⟨200, some { d with chatWidgetEnabled := some (d.chatWidgetEnabled.getD true) }, none⟩
        | _ => ⟨403, none, none⟩

end GetAdminConfig

/-! ### POST /admin-config — `src/netlify/functions/updateAdminConfig.js`
(first variant: no authentication, no field filtering) -/

namespace UpdateAdminConfigV1

/-- Response of the unfiltered update handler: status and the raw
object handed to `set(updates, {merge: true})`. -/
structure Out where
  status : Nat
  write : Option JVal := none

/-- `handler` of `updateAdminConfig.js` (lines 20-53).  `body` is the
result of `JSON.parse(event.body)` (`Except.error` = the parse threw,
caught as a 500).  A non-object that survives the emptiness checks is
rejected by Firestore's `set`, surfacing as the same catch-all 500. -/
def handler (method : String) (body : Except Unit JVal) : Out :=
  if method ≠ "POST" then ⟨405, none⟩
  else
    match body with
    | .error _ => ⟨500, none⟩
    | .ok updates =>
      if ¬ jsTruthy updates then ⟨400, none⟩
      else if (jsObjectKeys updates).length = 0 then ⟨400, none⟩
      else
        match updates with
        | .obj fs => ⟨200, some (.obj (jsObjSet fs "lastUpdated" .stamp))⟩
        | _ => ⟨500, none⟩

end UpdateAdminConfigV1

/-! ### POST /admin-config — `src/unnamed/part_013` (lines 339-410):
the authenticated, allow-listed variant -/

namespace UpdateAdminConfigV2

/-- Response of the filtered update handler: status and the
`allowedUpdates` patch handed to `set(..., {merge: true})`. -/
structure Out where
  status : Nat
  write : Option ConfigData := none
deriving DecidableEq

/-- The `allowedUpdates` object built from the parsed body: only
`maintenanceMode` (coerced with `!!`), `chatWidgetEnabled` (coerced
with `!!`) and `ipWhitelist` (only when it is an array, filtered to
its string elements) survive. -/
def allowedUpdates (updates : JVal) : ConfigData :=
  { maintenanceMode :=
      if jsHasOwn updates "maintenanceMode" then
        some (jsTruthy (jsGetField updates "maintenanceMode"))
      else none
    chatWidgetEnabled :=
      if jsHasOwn updates "chatWidgetEnabled" then
        some (jsTruthy (jsGetField updates "chatWidgetEnabled"))
      else none
    ipWhitelist :=
      if jsHasOwn updates "ipWhitelist" then
        match jsGetField updates "ipWhitelist" with
        | .arr es => some (es.filterMap (fun v => match v with | .str s => some s | _ => none))
        | _ => none
      else none }

/-- `handler` of the part_013 update endpoint. -/
def handler (verify : String → VerifyResult) (method : String)
    (authorization : Option String) (body : Except Unit JVal) : Out :=
  if method ≠ "POST" then ⟨405, none⟩
  else
    match authorization with
    | none => ⟨401, none⟩
    | some h =>
      if ¬ hasBearer h then ⟨401, none⟩
      else
        match verify (extractBearer h) with
        | .invalid => ⟨401, none⟩
        | .valid t =>
          match t.admin with
          | .bool true =>
            match body with
            | .error _ => ⟨500, none⟩
            | .ok updates =>
              if ¬ jsTruthy updates then ⟨400, none⟩
              else if (jsObjectKeys updates).length = 0 then ⟨400, none⟩
              else
                let allowed := allowedUpdates updates
                if allowed.maintenanceMode = none ∧ allowed.chatWidgetEnabled = none ∧
                    allowed.ipWhitelist = none then ⟨400, none⟩
                else ⟨200, some { allowed with lastUpdated := some () }⟩
          | _ => ⟨403, none⟩

end UpdateAdminConfigV2

/-! ### GET /public-config — `src/netlify/functions/getPublicConfig.js`
(second variant, lines 109-148, with `ipInSubnet`) -/

namespace GetPublicConfig

/-- The transport headers the handler consults. -/
structure Headers where
  clientIp : Option String := none
  xForwardedFor : Option String := none
  xNfClientConnectionIp : Option String := none

/-- The JSON body of a 200 response. -/
structure Body where
  maintenanceMode : Bool
  chatWidgetEnabled : Bool
  isRequesterAdmin : Bool
  clientIp : String
deriving DecidableEq

/-- Response: 200 with a body, or 500 with none.  The handler performs
no store write. -/
structure Out where
  status : Nat
  body : Option Body := none
deriving DecidableEq

/-- The client-address extraction
`headers['client-ip'] || (headers['x-forwarded-for'] || "").split(',')[0].trim() || headers['x-nf-client-connection-ip'] || ""`. -/
def clientIpOf (h : Headers) : String :=
  let c1 := h.clientIp.getD ""
  let c2 : String :=
    ⟨jsTrimL (((splitOnChar ',' (h.xForwardedFor.getD "").data)).headD [])⟩
  let c3 := h.xNfClientConnectionIp.getD ""
  if c1 ≠ "" then c1 else if c2 ≠ "" then c2 else if c3 ≠ "" then c3 else ""

/-- `handler` of the public config endpoint.  The whole body is inside
one `try`, so a throwing store read becomes the 500 response. -/
def handler (headers : Headers) (store : Except Unit (Option ConfigData)) : Out :=
  let ip := clientIpOf headers
  match store with
  | .error _ => ⟨500, none⟩
  | .ok d =>
    let configData := d.getD {}
    let whitelist := configData.ipWhitelist.getD []
    ⟨200, some
      { maintenanceMode := configData.maintenanceMode == some true
        chatWidgetEnabled := configData.chatWidgetEnabled != some false
        isRequesterAdmin := whitelist.any (fun range => ipInSubnet ip range)
        clientIp := ip }⟩

end GetPublicConfig

/-! ### Scheduled toggle job -/

/-- Query/header inputs of a toggle invocation
(`event.queryStringParameters?.mode` and the authorization header). -/
structure ToggleEvent where
  mode : Option String := none
  authorization : Option String := none

/-- Response of a toggle invocation: status and the
`{chatWidgetEnabled, lastUpdateAction}` pair handed to
`CONFIG_DOC_REF.update(...)` (the timestamp field is always attached
alongside). -/
structure ToggleOut where
  status : Nat
  write : Option (Bool × String) := none
deriving DecidableEq

/-- Weekday lookup
`{Sunday: 0, Monday: 1, ..., Saturday: 6}[weekday]` of part_002;
an unrecognised name gives `undefined`. -/
def daysMap (w : String) : Option Int :=
  if w = "Sunday" then some 0
  else if w = "Monday" then some 1
  else if w = "Tuesday" then some 2
  else if w = "Wednesday" then some 3
  else if w = "Thursday" then some 4
  else if w = "Friday" then some 5
  else if w = "Saturday" then some 6
  else none

/-- The `formatToParts` output of
`Intl.DateTimeFormat('en-US', {timeZone: 'America/Bogota', hour12: false, weekday: 'long', hour: '2-digit', minute: '2-digit'})`:
the Bogota-local long weekday name and zero-padded hour/minute
strings. -/
structure DateParts where
  weekday : String
  hour : String
  minute : String

/-! `src/netlify/functions/toggleChatWidget.js`: the UTC-hour variant.
Its manual path declares `decodedToken` inside the `try` block but
reads `decodedToken.email` after the block, so a successful
verification is followed by an uncaught `ReferenceError`. -/

namespace ToggleChatWidgetV1

/-- `handler` of `toggleChatWidget.js` (lines 29-95); `utcHour` is
`new Date().getUTCHours()`. -/
def handler (verify : String → VerifyResult) (utcHour : Nat) (ev : ToggleEvent) :
    Except Unit ToggleOut :=
  let manualMode := ev.mode.getD ""
  if manualMode ≠ "" then
    match ev.authorization with
    | none => .ok ⟨401, none⟩
    | some h =>
      if ¬ hasBearer h then .ok ⟨401, none⟩
      else
        match verify (extractBearer h) with
        | .invalid => .ok ⟨401, none⟩
        | .valid t =>
          match t.admin with
          | .bool true => .error ()
          | _ => .ok ⟨403, none⟩
  else if utcHour = 13 then
    .ok ⟨200, some (true, "Enabled Chat Widget (Scheduled ON @ 8 AM UTC-5)")⟩
  else if utcHour = 1 then
    .ok ⟨200, some (false, "Disabled Chat Widget (Scheduled OFF @ 8 PM UTC-5)")⟩
  else .ok ⟨200, none⟩

end ToggleChatWidgetV1

/-! `src/unnamed/part_002` (lines 100-163): the Bogota-schedule
variant.  Its manual path maps every verification failure — invalid
token or missing admin claim — to 403 through one `catch`; its
scheduled path reads the stored `chatSchedule` and compares zero-padded
`HHMM` strings. -/

namespace ToggleChatWidgetV2

/-- `handler` of the part_002 toggle endpoint.  `store` is the
`CONFIG_DOC_REF.get()` outcome; the scheduled branch performs it with
no `try`, so a throwing read crashes the invocation.  Dereferencing a
missing `enableTime`/`disableTime`/`activeDays` on a stored schedule
likewise throws (`undefined.replace` / `undefined.map`). -/
def handler (verify : String → VerifyResult) (store : Except Unit (Option ConfigData))
    (parts : DateParts) (ev : ToggleEvent) : Except Unit ToggleOut :=
  let manualMode := ev.mode.getD ""
  if manualMode ≠ "" then
    match ev.authorization with
    | none => .ok ⟨401, none⟩
    | some h =>
      if ¬ hasBearer h then .ok ⟨401, none⟩
      else
        match verify (extractBearer h) with
        | .invalid => .ok ⟨403, none⟩
        | .valid t =>
          match t.admin with
          | .bool true =>
            let enabled := manualMode == "on"
            .ok ⟨200, some (enabled,
              "Manual: " ++ (if enabled then "ON" else "OFF") ++ " by " ++ t.email)⟩
          | _ => .ok ⟨403, none⟩
  else
    match store with
    | .error _ => .error ()
    | .ok d =>
      let config := d.getD {}
      let schedule := config.chatSchedule.getD
        ⟨some "08:00", some "20:00", some [1, 2, 3, 4, 5]⟩
      match schedule.enableTime with
      | none => .error ()
      | some et =>
        match schedule.disableTime with
        | none => .error ()
        | some dt =>
          match schedule.activeDays with
          | none => .error ()
          | some ds =>
            let currentTimeStr := parts.hour ++ parts.minute
            let enableTimeStr : String := ⟨removeFirst ':' et.data⟩
            let disableTimeStr : String := ⟨removeFirst ':' dt.data⟩
            let activeDayValues := ds.map (fun d => if d = 7 then 0 else d)
            let isDayActive :=
              match daysMap parts.weekday with
              | some d => activeDayValues.contains d
              | none => false
            let enabled := isDayActive && !(jsStrLt currentTimeStr enableTimeStr) &&
              jsStrLt currentTimeStr disableTimeStr
            .ok ⟨200, some (enabled,
              "Scheduled " ++ (if enabled then "ON" else "OFF") ++ " (Bogota: " ++
                parts.weekday ++ " " ++ parts.hour ++ ":" ++ parts.minute ++ ")")⟩

end ToggleChatWidgetV2

/-! `src/unnamed/part_003`: the dynamic-schedule variant with the
incomplete-schedule guard.  Its manual path has the same out-of-scope
`decodedToken` read as `toggleChatWidget.js`; its complete-schedule
path calls `Intl.DateTimeFormat` with `weekday: 'numeric'`, which
ECMA-402 rejects with a `RangeError` (the defect part_002's header
comment says it fixes), so only the skip and incomplete-schedule
branches complete. -/

namespace ToggleChatWidgetV3

/-- `handler` of the part_003 toggle endpoint. -/
def handler (verify : String → VerifyResult) (store : Except Unit (Option ConfigData))
    (ev : ToggleEvent) : Except Unit ToggleOut :=
  let manualMode := ev.mode.getD ""
  if manualMode ≠ "" then
    match ev.authorization with
    | none => .ok ⟨401, none⟩
    | some h =>
      if ¬ hasBearer h then .ok ⟨401, none⟩
      else
        match verify (extractBearer h) with
        | .invalid => .ok ⟨401, none⟩
        | .valid t =>
          match t.admin with
          | .bool true => .error ()
          | _ => .ok ⟨403, none⟩
  else
    match store with
    | .error _ => .ok ⟨500, none⟩
    | .ok d =>
      let config := d.getD {}
      if config.chatWidgetEnabled = some false then .ok ⟨200, none⟩
      else
        let finalSchedule := config.chatSchedule.getD
          ⟨some "08:00", some "20:00", some [1, 2, 3, 4, 5]⟩
        let incomplete :=
          (match finalSchedule.enableTime with | none => true | some s => s == "") ||
          (match finalSchedule.disableTime with | none => true | some s => s == "") ||
          (match finalSchedule.activeDays with | none => true | some l => l.isEmpty)
        if incomplete then
          .ok ⟨200, some (false, "Disabled Chat Widget (Missing Schedule)")⟩
        else .error ()

end ToggleChatWidgetV3

/-! ### Zero-padded rendering of the simulated Bogota clock -/

/-- The character of a decimal digit. -/
def digitChar (d : Nat) : Char := Char.ofNat (48 + d)

/-- Two-digit zero-padded rendering (how the `2-digit` option of
`Intl.DateTimeFormat` prints hours and minutes below 100). -/
def twoDigit (n : Nat) : String := ⟨[digitChar (n / 10), digitChar (n % 10)]⟩

/-- The `long` weekday names, indexed 0 = Sunday .. 6 = Saturday. -/
def dayName (d : Nat) : String :=
  if d = 0 then "Sunday"
  else if d = 1 then "Monday"
  else if d = 2 then "Tuesday"
  else if d = 3 then "Wednesday"
  else if d = 4 then "Thursday"
  else if d = 5 then "Friday"
  else "Saturday"

/-! ## Claim theorems -/

/-- C1: the spec requires every `POST /admin-config` with a missing,
malformed, invalid or non-admin credential to get a 401/403 and leave
the store unchanged, and `updateAdminConfig.js` documents itself as
"(Admin Only)" — but that handler never looks at the authorization
header: a request with no credential at all is answered 200 and its
body is merged into the ConfigRecord. -/
theorem c1_update_without_auth_writes :
    UpdateAdminConfigV1.handler "POST" (.ok (.obj [("maintenanceMode", .bool true)])) =
      ⟨200, some (.obj [("maintenanceMode", .bool true), ("lastUpdated", .stamp)])⟩ := rfl

/-- C2 counterexample: the lazily-created config document does not
carry the claimed default `ipWhitelist = []`: the initialisation
writes (and returns) `ipWhitelist = ["127.0.0.1"]`. -/
theorem c2_counterexample :
    GetAdminConfig.handler (fun _ => .valid ⟨.bool true, "admin@autoinx.com"⟩)
        (some "Bearer tok") (.ok none) =
      ⟨200, some GetAdminConfig.initialConfig, some GetAdminConfig.initialConfig⟩ ∧
    GetAdminConfig.initialConfig.ipWhitelist = some ["127.0.0.1"] ∧
    some ["127.0.0.1"] ≠ some ([] : List String) := by
  refine ⟨rfl, rfl, by simp⟩

/-- C2 (amended): when an authenticated admin read finds no singleton
ConfigRecord, the handler returns the defaults
`{maintenanceMode: false, chatWidgetEnabled: true, ipWhitelist: ["127.0.0.1"]}`
(plus the server timestamp) and persists exactly that document with a
non-merge `set`. -/
theorem c2_read_absent_initialises_defaults
    (verify : String → VerifyResult) (h : String) (t : DecodedToken)
    (hb : hasBearer h = true)
    (hv : verify (extractBearer h) = .valid t)
    (hadm : t.admin = .bool true) :
    GetAdminConfig.handler verify (some h) (.ok none) =
      ⟨200, some GetAdminConfig.initialConfig, some GetAdminConfig.initialConfig⟩ := by
  simp [GetAdminConfig.handler, hb, hv, hadm]

/-- C2 witness. -/
theorem c2_read_absent_initialises_defaults_witness :
    GetAdminConfig.handler (fun _ => .valid ⟨.bool true, "ops@autoinx.com"⟩)
        (some "Bearer t0") (.ok none) =
      ⟨200, some GetAdminConfig.initialConfig, some GetAdminConfig.initialConfig⟩ :=
  c2_read_absent_initialises_defaults _ _ ⟨.bool true, "ops@autoinx.com"⟩
    (by decide) rfl rfl

/-- C4 counterexample: in the `toggleChatWidget.js` variant a manual
`mode=on` override by a verified admin does not complete: the handler
reads `decodedToken.email` outside the `try` block that declared
`decodedToken`, so the invocation throws before any write. -/
theorem c4_counterexample :
    ToggleChatWidgetV1.handler (fun _ => .valid ⟨.bool true, "admin@autoinx.com"⟩) 13
      ⟨some "on", some "Bearer tok"⟩ = .error () := rfl

/-- C4 (amended): in the part_002 variant, `mode=on` with a token whose
admin claim is exactly `true` always writes `chatWidgetEnabled = true`
with `lastUpdateAction = "Manual: ON by <email>"`, regardless of the
stored schedule or the clock, and `mode=off` symmetrically writes
`false`; the `toggleChatWidget.js` variant instead throws a
`ReferenceError` before writing. -/
theorem c4_manual_override (verify : String → VerifyResult)
    (store : Except Unit (Option ConfigData)) (parts : DateParts)
    (h : String) (t : DecodedToken)
    (hb : hasBearer h = true)
    (hv : verify (extractBearer h) = .valid t)
    (hadm : t.admin = .bool true) :
    ToggleChatWidgetV2.handler verify store parts ⟨some "on", some h⟩ =
      .ok ⟨200, some (true, "Manual: ON by " ++ t.email)⟩ ∧
    ToggleChatWidgetV2.handler verify store parts ⟨some "off", some h⟩ =
      .ok ⟨200, some (false, "Manual: OFF by " ++ t.email)⟩ := by
  constructor <;> simp [ToggleChatWidgetV2.handler, hb, hv, hadm]

/-- C4 witness. -/
theorem c4_manual_override_witness :
    ToggleChatWidgetV2.handler (fun _ => .valid ⟨.bool true, "a@b.co"⟩) (.ok none)
        ⟨"Saturday", "23", "59"⟩ ⟨some "on", some "Bearer tok"⟩ =
      .ok ⟨200, some (true, "Manual: ON by a@b.co")⟩ ∧
    ToggleChatWidgetV2.handler (fun _ => .valid ⟨.bool true, "a@b.co"⟩) (.ok none)
        ⟨"Saturday", "23", "59"⟩ ⟨some "off", some "Bearer tok"⟩ =
      .ok ⟨200, some (false, "Manual: OFF by a@b.co")⟩ :=
  c4_manual_override (fun _ => .valid ⟨.bool true, "a@b.co"⟩) (.ok none)
    ⟨"Saturday", "23", "59"⟩ "Bearer tok" ⟨.bool true, "a@b.co"⟩ (by decide) rfl rfl

/-- C6 counterexample: an address that fails to parse is not always a
non-match: its NaN octets coerce to the integer 0, so `"not-an-ip"`
matches the range `0.0.0.0/24`. -/
theorem c6_counterexample : ipInSubnet "not-an-ip" "0.0.0.0/24" = true := by decide

/-- C6 (amended): the CIDR matcher is a total function (nothing in its
`try` block can raise); an empty address or an empty whitelist entry
always yields `false`, and the specific example
`matches("not-an-ip", "10.0.0.0/24")` is `false`; but a parse failure
does not force a non-match in general, because non-numeric components
coerce through NaN to the integer 0. -/
theorem c6_parse_failure_behaviour :
    (∀ entry : String, ipInSubnet "" entry = false) ∧
    (∀ ip : String, ipInSubnet ip "" = false) ∧
    ipInSubnet "not-an-ip" "10.0.0.0/24" = false := by
  refine ⟨fun entry => ?_, fun ip => ?_, by decide⟩ <;>
    simp [ipInSubnet, ipInSubnetL]

/-- C8 counterexample: on the part_002 toggle endpoint a manual
override carrying an invalid (or expired) bearer token is answered
403, not the claimed 401 — its `catch` folds invalid tokens and the
missing-privilege throw into one 403. -/
theorem c8_counterexample :
    ToggleChatWidgetV2.handler (fun _ => .invalid) (.ok none) ⟨"Wednesday", "09", "00"⟩
        ⟨some "on", some "Bearer bad"⟩ = .ok ⟨403, none⟩ ∧ (403 : Nat) ≠ 401 := by
  exact ⟨rfl, by decide⟩

/-- C8 (amended): on the admin-config GET endpoint and the part_013
update endpoint the three authentication failures map as claimed
(missing/malformed header → 401, invalid token → 401, valid token
without `admin = true` → 403, never writing); on the part_002 toggle
endpoint a missing/malformed header still yields 401, but an invalid
token yields 403, the same status as insufficient privilege. -/
theorem c8_auth_failure_statuses (verify : String → VerifyResult)
    (store : Except Unit (Option ConfigData)) (body : Except Unit JVal)
    (parts : DateParts) (m h : String) (t : DecodedToken) :
    (GetAdminConfig.handler verify none store = ⟨401, none, none⟩) ∧
    (UpdateAdminConfigV2.handler verify "POST" none body = ⟨401, none⟩) ∧
    (m ≠ "" → ToggleChatWidgetV2.handler verify store parts ⟨some m, none⟩ = .ok ⟨401, none⟩) ∧
    (hasBearer h = false →
      GetAdminConfig.handler verify (some h) store = ⟨401, none, none⟩ ∧
      UpdateAdminConfigV2.handler verify "POST" (some h) body = ⟨401, none⟩ ∧
      (m ≠ "" →
        ToggleChatWidgetV2.handler verify store parts ⟨some m, some h⟩ = .ok ⟨401, none⟩)) ∧
    (hasBearer h = true → verify (extractBearer h) = .invalid →
      GetAdminConfig.handler verify (some h) store = ⟨401, none, none⟩ ∧
      UpdateAdminConfigV2.handler verify "POST" (some h) body = ⟨401, none⟩ ∧
      (m ≠ "" →
        ToggleChatWidgetV2.handler verify store parts ⟨some m, some h⟩ = .ok ⟨403, none⟩)) ∧
    (hasBearer h = true → verify (extractBearer h) = .valid t → t.admin ≠ .bool true →
      GetAdminConfig.handler verify (some h) store = ⟨403, none, none⟩ ∧
      UpdateAdminConfigV2.handler verify "POST" (some h) body = ⟨403, none⟩ ∧
      (m ≠ "" →
        ToggleChatWidgetV2.handler verify store parts ⟨some m, some h⟩ = .ok ⟨403, none⟩)) := by
  refine ⟨?_, ?_, ?_, ?_, ?_, ?_⟩
  · simp [GetAdminConfig.handler]
  · simp [UpdateAdminConfigV2.handler]
  · intro hm; simp [ToggleChatWidgetV2.handler, hm]
  · intro hnb
    refine ⟨?_, ?_, fun hm => ?_⟩
    · simp [GetAdminConfig.handler, hnb]
    · simp [UpdateAdminConfigV2.handler, hnb]
    · simp [ToggleChatWidgetV2.handler, hnb, hm]
  · intro hb hv
    refine ⟨?_, ?_, fun hm => ?_⟩
    · simp [GetAdminConfig.handler, hb, hv]
    · simp [UpdateAdminConfigV2.handler, hb, hv]
    · simp [ToggleChatWidgetV2.handler, hb, hv, hm]
  · intro hb hv hadm
    have hcase : ∀ {α : Type} (a b : α),
        (match t.admin with | .bool true => a | _ => b) = b := by
      intro α a b
      rcases ht : t.admin with _ | tb | _ | _ | _ | _ | _ <;> try rfl
      cases tb
      · rfl
      · exact absurd ht hadm
    refine ⟨?_, ?_, fun hm => ?_⟩
    · simp [GetAdminConfig.handler, hb, hv, hcase]
    · simp [UpdateAdminConfigV2.handler, hb, hv, hcase]
    · simp [ToggleChatWidgetV2.handler, hb, hv, hm, hcase]

/-- C8 witness. -/
theorem c8_auth_failure_statuses_witness :
    GetAdminConfig.handler (fun _ => .invalid) none (.ok none) = ⟨401, none, none⟩ ∧
    GetAdminConfig.handler (fun _ => .invalid) (some "Token x") (.ok none) = ⟨401, none, none⟩ ∧
    GetAdminConfig.handler (fun _ => .invalid) (some "Bearer x") (.ok none) = ⟨401, none, none⟩ ∧
    GetAdminConfig.handler (fun _ => .valid ⟨.bool false, "u@x.co"⟩) (some "Bearer x")
      (.ok none) = ⟨403, none, none⟩ ∧
    ToggleChatWidgetV2.handler (fun _ => .invalid) (.ok none) ⟨"Monday", "10", "00"⟩
      ⟨some "on", some "Bearer x"⟩ = .ok ⟨403, none⟩ := by
  refine ⟨(c8_auth_failure_statuses (fun _ => .invalid) (.ok none) (.ok .null)
      ⟨"Monday", "10", "00"⟩ "on" "Bearer x" ⟨.bool false, "u@x.co"⟩).1,
    ((c8_auth_failure_statuses (fun _ => .invalid) (.ok none) (.ok .null)
      ⟨"Monday", "10", "00"⟩ "on" "Token x" ⟨.bool false, "u@x.co"⟩).2.2.2.1 (by decide)).1,
    ((c8_auth_failure_statuses (fun _ => .invalid) (.ok none) (.ok .null)
      ⟨"Monday", "10", "00"⟩ "on" "Bearer x" ⟨.bool false, "u@x.co"⟩).2.2.2.2.1 (by decide) rfl).1,
    ((c8_auth_failure_statuses (fun _ => .valid ⟨.bool false, "u@x.co"⟩) (.ok none) (.ok .null)
      ⟨"Monday", "10", "00"⟩ "on" "Bearer x" ⟨.bool false, "u@x.co"⟩).2.2.2.2.2 (by decide) rfl
      (by simp)).1,
    ((c8_auth_failure_statuses (fun _ => .invalid) (.ok none) (.ok .null)
      ⟨"Monday", "10", "00"⟩ "on" "Bearer x" ⟨.bool false, "u@x.co"⟩).2.2.2.2.1 (by decide) rfl).2.2
      (by decide)⟩

/-- C9 counterexample: in the part_002 variant a scheduled invocation
whose stored `chatSchedule` lacks `enableTime` crashes with a
`TypeError` (`undefined.replace`) instead of writing
`chatWidgetEnabled = false`. -/
theorem c9_counterexample :
    ToggleChatWidgetV2.handler (fun _ => .invalid)
      (.ok (some { chatSchedule := some ⟨none, some "20:00", some [1, 2, 3, 4, 5]⟩ }))
      ⟨"Wednesday", "09", "00"⟩ ⟨none, none⟩ = .error () := rfl

/-- C9 (amended): in the part_003 variant, when the stored
`chatWidgetEnabled` is not `false`, a scheduled invocation finding a
`chatSchedule` that lacks a time bound or has an empty `activeDays`
does not crash: it writes `chatWidgetEnabled = false` with
`lastUpdateAction = "Disabled Chat Widget (Missing Schedule)"`.  When
the stored `chatWidgetEnabled` is `false` the job instead exits early
with no write at all, and the part_002 variant throws a `TypeError` on
such schedules. -/
theorem c9_incomplete_schedule_disables (verify : String → VerifyResult)
    (d : Option ConfigData) (sched : ChatSchedule)
    (hw : (d.getD {}).chatWidgetEnabled ≠ some false)
    (hs : (d.getD {}).chatSchedule = some sched)
    (hinc : sched.enableTime = none ∨ sched.disableTime = none ∨ sched.activeDays = some []) :
    ToggleChatWidgetV3.handler verify (.ok d) ⟨none, none⟩ =
      .ok ⟨200, some (false, "Disabled Chat Widget (Missing Schedule)")⟩ := by
  have hinc' :
      ((match sched.enableTime with | none => true | some s => s == "") ||
       (match sched.disableTime with | none => true | some s => s == "") ||
       (match sched.activeDays with | none => true | some l => l.isEmpty)) = true := by
    rcases hinc with h | h | h <;> simp [h]
  simp [ToggleChatWidgetV3.handler, hw, hs, hinc']

/-- C9 witness. -/
theorem c9_incomplete_schedule_disables_witness :
    ToggleChatWidgetV3.handler (fun _ => .invalid)
      (.ok (some { chatWidgetEnabled := some true,
                   chatSchedule := some ⟨some "08:00", some "20:00", some []⟩ }))
      ⟨none, none⟩ =
      .ok ⟨200, some (false, "Disabled Chat Widget (Missing Schedule)")⟩ :=
  c9_incomplete_schedule_disables (fun _ => .invalid)
    (some { chatWidgetEnabled := some true,
            chatSchedule := some ⟨some "08:00", some "20:00", some []⟩ })
    ⟨some "08:00", some "20:00", some []⟩ (by simp) rfl (by simp)

/-- C10: the public config endpoint degrades to the safe defaults
`maintenanceMode = false`, `chatWidgetEnabled = true` (with an empty
whitelist verdict and no store write) exactly when the singleton
record is absent, answering 200; a store read that throws is instead
surfaced as a 500 error response with no body. -/
theorem c10_public_config_defaults_only_when_absent :
    (∀ headers : GetPublicConfig.Headers, ∃ ip,
      GetPublicConfig.handler headers (.ok none) = ⟨200, some ⟨false, true, false, ip⟩⟩) ∧
    (∀ headers : GetPublicConfig.Headers,
      GetPublicConfig.handler headers (.error ()) = ⟨500, none⟩) := by
  exact ⟨fun headers => ⟨GetPublicConfig.clientIpOf headers, rfl⟩, fun headers => rfl⟩

/-- C5 counterexample: `chatSchedule` is not on the code's allow-list:
an authenticated update whose body is only a `chatSchedule` patch is
rejected with 400 and writes nothing, instead of being merged. -/
theorem c5_counterexample :
    UpdateAdminConfigV2.handler (fun _ => .valid ⟨.bool true, "admin@autoinx.com"⟩)
      "POST" (some "Bearer tok")
      (.ok (.obj [("chatSchedule", .obj [("enableTime", .str "09:00")])])) =
      ⟨400, none⟩ := rfl

/-- C5 (amended): on the authenticated part_013 update endpoint the
allow-list is only `maintenanceMode`, `chatWidgetEnabled` and
`ipWhitelist` — `chatSchedule` counts as disallowed.  A non-empty body
none of whose fields survive the allow-list yields 400 with no write;
otherwise the handler answers 200 and writes exactly the filtered
patch (booleans coerced by truthiness, `ipWhitelist` kept only when it
is an array and filtered to its string elements) plus the timestamp,
and merging that patch into any stored record leaves `chatSchedule`,
`lastUpdateAction` and every allow-listed field absent from the body
unchanged while overwriting the fields the patch carries. -/
theorem c5_allow_list_merge (verify : String → VerifyResult) (h : String)
    (t : DecodedToken) (fs : List (String × JVal)) (patch : ConfigData)
    (hb : hasBearer h = true)
    (hv : verify (extractBearer h) = .valid t)
    (hadm : t.admin = .bool true)
    (hne : fs ≠ [])
    (hpatch : patch =
      { UpdateAdminConfigV2.allowedUpdates (.obj fs) with lastUpdated := some () }) :
    ((UpdateAdminConfigV2.allowedUpdates (.obj fs)).maintenanceMode = none ∧
     (UpdateAdminConfigV2.allowedUpdates (.obj fs)).chatWidgetEnabled = none ∧
     (UpdateAdminConfigV2.allowedUpdates (.obj fs)).ipWhitelist = none →
      UpdateAdminConfigV2.handler verify "POST" (some h) (.ok (.obj fs)) = ⟨400, none⟩) ∧
    (¬ ((UpdateAdminConfigV2.allowedUpdates (.obj fs)).maintenanceMode = none ∧
        (UpdateAdminConfigV2.allowedUpdates (.obj fs)).chatWidgetEnabled = none ∧
        (UpdateAdminConfigV2.allowedUpdates (.obj fs)).ipWhitelist = none) →
      UpdateAdminConfigV2.handler verify "POST" (some h) (.ok (.obj fs)) =
        ⟨200, some patch⟩) ∧
    (∀ old : ConfigData,
      (mergeConfig old patch).chatSchedule = old.chatSchedule ∧
      (mergeConfig old patch).lastUpdateAction = old.lastUpdateAction ∧
      (patch.maintenanceMode = none →
        (mergeConfig old patch).maintenanceMode = old.maintenanceMode) ∧
      (∀ v, patch.maintenanceMode = some v → (mergeConfig old patch).maintenanceMode = some v) ∧
      (patch.chatWidgetEnabled = none →
        (mergeConfig old patch).chatWidgetEnabled = old.chatWidgetEnabled) ∧
      (∀ v, patch.chatWidgetEnabled = some v →
        (mergeConfig old patch).chatWidgetEnabled = some v) ∧
      (patch.ipWhitelist = none → (mergeConfig old patch).ipWhitelist = old.ipWhitelist) ∧
      (∀ v, patch.ipWhitelist = some v → (mergeConfig old patch).ipWhitelist = some v)) := by
  have hkeys : (jsObjectKeys (.obj fs)).length ≠ 0 := by
    simpa [jsObjectKeys] using hne
  have hpcs : patch.chatSchedule = none := by rw [hpatch]; rfl
  have hplua : patch.lastUpdateAction = none := by rw [hpatch]; rfl
  refine ⟨fun hempty => ?_, fun hfull => ?_, fun old => ?_⟩
  · simp [UpdateAdminConfigV2.handler, hb, hv, hadm, jsTruthy, hkeys,
      hempty.1, hempty.2.1, hempty.2.2]
  · simp only [UpdateAdminConfigV2.handler, hb, hv, hadm, hpatch]
    simp [jsTruthy, hkeys, hfull]
  · refine ⟨?_, ?_, ?_, ?_, ?_, ?_, ?_, ?_⟩ <;>
      simp only [mergeConfig, hpcs, hplua] <;>
      first
        | rfl
        | (intro hx; simp [hx])
        | (intro v hx; simp [hx])

/-- C5 witness. -/
theorem c5_allow_list_merge_witness :
    UpdateAdminConfigV2.handler (fun _ => .valid ⟨.bool true, "a@b.co"⟩) "POST"
        (some "Bearer tok") (.ok (.obj [("maintenanceMode", .bool true), ("foo", .str "bar")])) =
      ⟨200, some { maintenanceMode := some true, lastUpdated := some () }⟩ ∧
    (mergeConfig
        { chatWidgetEnabled := some false, ipWhitelist := some ["1.2.3.4"],
          chatSchedule := some ⟨some "08:00", some "20:00", some [1]⟩,
          lastUpdateAction := some "x" }
        { maintenanceMode := some true, lastUpdated := some () }).chatSchedule =
      some ⟨some "08:00", some "20:00", some [1]⟩ := by
  have main := c5_allow_list_merge (fun _ => .valid ⟨.bool true, "a@b.co"⟩) "Bearer tok"
    ⟨.bool true, "a@b.co"⟩ [("maintenanceMode", .bool true), ("foo", .str "bar")]
    { maintenanceMode := some true, lastUpdated := some () }
    (by decide) rfl rfl (by simp) (by rfl)
  exact ⟨main.2.1 (by decide), (main.2.2 _).1⟩

/-! ### Lemmas about the zero-padded time-string comparison -/

theorem digitChar_toNat {d : Nat} (hd : d ≤ 9) : (digitChar d).toNat = 48 + d := by
  interval_cases d <;> rfl

theorem twoDigit_data (n : Nat) :
    (twoDigit n).data = [digitChar (n / 10), digitChar (n % 10)] := rfl

/-- Lexicographic comparison of two `HHMM`-style concatenations of
zero-padded two-digit blocks agrees with comparing `100 * high + low`. -/
theorem jsStrLt_twoDigit_pairs (a b c d : Nat)
    (ha : a < 100) (hb : b < 100) (hc : c < 100) (hd : d < 100) :
    jsStrLt (twoDigit a ++ twoDigit b) (twoDigit c ++ twoDigit d) =
      decide (100 * a + b < 100 * c + d) := by
  have h1 : a / 10 ≤ 9 := by omega
  have h2 : a % 10 ≤ 9 := by omega
  have h3 : b / 10 ≤ 9 := by omega
  have h4 : b % 10 ≤ 9 := by omega
  have h5 : c / 10 ≤ 9 := by omega
  have h6 : c % 10 ≤ 9 := by omega
  have h7 : d / 10 ≤ 9 := by omega
  have h8 : d % 10 ≤ 9 := by omega
  have ea := Nat.div_add_mod a 10
  have eb := Nat.div_add_mod b 10
  have ec := Nat.div_add_mod c 10
  have ed := Nat.div_add_mod d 10
  simp only [jsStrLt, String.data_append, twoDigit_data, List.cons_append,
    List.nil_append, jsStrLtL, digitChar_toNat h1, digitChar_toNat h2,
    digitChar_toNat h3, digitChar_toNat h4, digitChar_toNat h5,
    digitChar_toNat h6, digitChar_toNat h7, digitChar_toNat h8]
  split_ifs <;> symm <;>
    first
      | (rw [decide_eq_true_eq]; omega)
      | (rw [decide_eq_false_iff_not]; omega)

theorem daysMap_dayName {d : Nat} (hd : d < 7) : daysMap (dayName d) = some (d : Int) := by
  interval_cases d <;> decide

theorem digitChar_ne_colon {d : Nat} (hd : d ≤ 9) : digitChar d ≠ ':' := by
  interval_cases d <;> decide

theorem removeFirst_append_of_not_mem {c : Char} {l r : List Char} (h : c ∉ l) :
    removeFirst c (l ++ c :: r) = l ++ r := by
  induction l with
  | nil => simp [removeFirst]
  | cons x xs ih =>
    have hx : x ≠ c := fun hxc => h (hxc ▸ List.mem_cons_self x xs)
    simp only [List.cons_append, removeFirst, if_neg hx, List.append_eq]
    rw [ih (fun hmem => h (List.mem_cons_of_mem x hmem))]

theorem colon_not_mem_twoDigit {n : Nat} (hn : n < 100) : ':' ∉ (twoDigit n).data := by
  rw [twoDigit_data]
  intro hmem
  rcases List.mem_cons.mp hmem with h | h
  · exact digitChar_ne_colon (by omega) h.symm
  · rcases List.mem_cons.mp h with h' | h'
    · exact digitChar_ne_colon (by omega) h'.symm
    · simp at h'

/-- C3 counterexample: the `toggleChatWidget.js` variant of the
scheduled job ignores the stored schedule entirely — its cron branch
only looks at the UTC hour.  At Bogota-local Wednesday 09:00
(14:00 UTC), one of the claim's own example inputs, it performs no
write at all instead of writing `chatWidgetEnabled = true`; and at
13:00 UTC it writes `true` without consulting the day of week. -/
theorem c3_counterexample :
    ToggleChatWidgetV1.handler (fun _ => .invalid) 14 ⟨none, none⟩ =
      .ok ⟨200, none⟩ ∧
    ToggleChatWidgetV1.handler (fun _ => .invalid) 13 ⟨none, none⟩ =
      .ok ⟨200, some (true, "Enabled Chat Widget (Scheduled ON @ 8 AM UTC-5)")⟩ :=
  ⟨rfl, rfl⟩

/-- C3 (amended): a scheduled (no `mode`) invocation of the part_002 toggle job,
with a stored-or-fallback schedule carrying both `HH:MM` time bounds
and an `activeDays` list of days 0-6, writes `chatWidgetEnabled = true`
exactly when the Bogota-local day is in `activeDays` and the
Bogota-local time lies in `[enableTime, disableTime)`, and writes
`false` otherwise.  (The `toggleChatWidget.js` variant instead acts on
two fixed UTC hours only, so the property holds for part_002 but not
for that variant.) -/
theorem c3_scheduled_window (verify : String → VerifyResult)
    (cfgOpt : Option ConfigData) (auth : Option String)
    (d h m eh em dh dm : Nat) (days : List Int)
    (hd : d < 7) (hh : h < 24) (hm : m < 60)
    (heh : eh < 24) (hem : em < 60) (hdh : dh < 24) (hdm : dm < 60)
    (hne : days ≠ []) (hdays : ∀ x ∈ days, 0 ≤ x ∧ x ≤ 6)
    (hsched : (cfgOpt.getD {}).chatSchedule.getD
        ⟨some "08:00", some "20:00", some [1, 2, 3, 4, 5]⟩ =
      ⟨some (twoDigit eh ++ ":" ++ twoDigit em),
       some (twoDigit dh ++ ":" ++ twoDigit dm), some days⟩) :
    ∃ act : String,
      ToggleChatWidgetV2.handler verify (.ok cfgOpt)
          ⟨dayName d, twoDigit h, twoDigit m⟩ ⟨none, auth⟩ =
        .ok ⟨200, some
          (decide ((d : Int) ∈ days ∧
            60 * eh + em ≤ 60 * h + m ∧ 60 * h + m < 60 * dh + dm), act)⟩ := by
  have hmap : days.map (fun x => if x = 7 then 0 else x) = days := by
    conv_rhs => rw [← List.map_id days]
    exact List.map_congr_left fun x hx => by
      have := hdays x hx; rw [if_neg (by omega)]; rfl
  have hcontains : days.contains (d : Int) = decide ((d : Int) ∈ days) := by
    by_cases hmem : (d : Int) ∈ days
    · simp [List.elem_iff.mpr hmem, hmem]
    · simp only [decide_eq_false hmem]
      exact Bool.eq_false_iff.mpr fun habs => hmem (List.elem_iff.mp habs)
  have het : (twoDigit eh ++ ":" ++ twoDigit em).data =
      (twoDigit eh).data ++ ':' :: (twoDigit em).data := by
    simp [String.data_append]
  have hdt : (twoDigit dh ++ ":" ++ twoDigit dm).data =
      (twoDigit dh).data ++ ':' :: (twoDigit dm).data := by
    simp [String.data_append]
  have hret : removeFirst ':' ((twoDigit eh ++ ":" ++ twoDigit em).data) =
      (twoDigit eh).data ++ (twoDigit em).data := by
    rw [het, removeFirst_append_of_not_mem (colon_not_mem_twoDigit (by omega))]
  have hrdt : removeFirst ':' ((twoDigit dh ++ ":" ++ twoDigit dm).data) =
      (twoDigit dh).data ++ (twoDigit dm).data := by
    rw [hdt, removeFirst_append_of_not_mem (colon_not_mem_twoDigit (by omega))]
  have hcmpE : jsStrLt (twoDigit h ++ twoDigit m) ⟨(twoDigit eh).data ++ (twoDigit em).data⟩ =
      decide (100 * h + m < 100 * eh + em) := by
    have : (⟨(twoDigit eh).data ++ (twoDigit em).data⟩ : String) = twoDigit eh ++ twoDigit em := rfl
    rw [this, jsStrLt_twoDigit_pairs h m eh em (by omega) (by omega) (by omega) (by omega)]
  have hcmpD : jsStrLt (twoDigit h ++ twoDigit m) ⟨(twoDigit dh).data ++ (twoDigit dm).data⟩ =
      decide (100 * h + m < 100 * dh + dm) := by
    have : (⟨(twoDigit dh).data ++ (twoDigit dm).data⟩ : String) = twoDigit dh ++ twoDigit dm := rfl
    rw [this, jsStrLt_twoDigit_pairs h m dh dm (by omega) (by omega) (by omega) (by omega)]
  refine ⟨"Scheduled " ++
    (if (decide ((d : Int) ∈ days ∧
        60 * eh + em ≤ 60 * h + m ∧ 60 * h + m < 60 * dh + dm)) then "ON" else "OFF") ++
    " (Bogota: " ++ dayName d ++ " " ++ twoDigit h ++ ":" ++ twoDigit m ++ ")", ?_⟩
  have hbool :
      (days.contains (d : Int) && !(decide (100 * h + m < 100 * eh + em)) &&
        decide (100 * h + m < 100 * dh + dm)) =
      decide ((d : Int) ∈ days ∧
        60 * eh + em ≤ 60 * h + m ∧ 60 * h + m < 60 * dh + dm) := by
    have hb1 : decide (100 * h + m < 100 * eh + em) =
        !decide (60 * eh + em ≤ 60 * h + m) := by
      by_cases hc : 60 * eh + em ≤ 60 * h + m
      · have hno : ¬ (100 * h + m < 100 * eh + em) := by omega
        simp [hc, hno]
      · have hyes : 100 * h + m < 100 * eh + em := by omega
        simp [hc, hyes]
    have hb2 : decide (100 * h + m < 100 * dh + dm) =
        decide (60 * h + m < 60 * dh + dm) := by
      by_cases hc : 60 * h + m < 60 * dh + dm
      · have hyes : 100 * h + m < 100 * dh + dm := by omega
        simp [hc, hyes]
      · have hno : ¬ (100 * h + m < 100 * dh + dm) := by omega
        simp [hc, hno]
    rw [hcontains, hb1, hb2, Bool.not_not]
    simp [Bool.and_assoc]
  simp only [ToggleChatWidgetV2.handler]
  rw [hsched]
  simp only [hret, hrdt, hmap, daysMap_dayName hd, hcmpE, hcmpD, hbool]
  simp

/-- C3 witness: with the fallback schedule (Mon-Fri, 08:00-20:00) the
job writes `true` at Bogota Wednesday 09:00 and `false` at Saturday
09:00 and at Wednesday 21:00. -/
theorem c3_scheduled_window_witness :
    (∃ act, ToggleChatWidgetV2.handler (fun _ => .invalid) (.ok none)
        ⟨dayName 3, twoDigit 9, twoDigit 0⟩ ⟨none, none⟩ = .ok ⟨200, some (true, act)⟩) ∧
    (∃ act, ToggleChatWidgetV2.handler (fun _ => .invalid) (.ok none)
        ⟨dayName 6, twoDigit 9, twoDigit 0⟩ ⟨none, none⟩ = .ok ⟨200, some (false, act)⟩) ∧
    (∃ act, ToggleChatWidgetV2.handler (fun _ => .invalid) (.ok none)
        ⟨dayName 3, twoDigit 21, twoDigit 0⟩ ⟨none, none⟩ = .ok ⟨200, some (false, act)⟩) := by
  have hsched : ((none : Option ConfigData).getD {}).chatSchedule.getD
      ⟨some "08:00", some "20:00", some [1, 2, 3, 4, 5]⟩ =
      ⟨some (twoDigit 8 ++ ":" ++ twoDigit 0),
       some (twoDigit 20 ++ ":" ++ twoDigit 0), some [1, 2, 3, 4, 5]⟩ := by decide
  refine ⟨?_, ?_, ?_⟩
  · obtain ⟨act, hact⟩ := c3_scheduled_window (fun _ => .invalid) none none
      3 9 0 8 0 20 0 [1, 2, 3, 4, 5] (by omega) (by omega) (by omega) (by omega)
      (by omega) (by omega) (by omega) (by simp) (by decide) hsched
    rw [show (decide (((3 : Nat) : Int) ∈ [(1 : Int), 2, 3, 4, 5] ∧
        60 * 8 + 0 ≤ 60 * 9 + 0 ∧ 60 * 9 + 0 < 60 * 20 + 0)) = true by decide] at hact
    exact ⟨act, hact⟩
  · obtain ⟨act, hact⟩ := c3_scheduled_window (fun _ => .invalid) none none
      6 9 0 8 0 20 0 [1, 2, 3, 4, 5] (by omega) (by omega) (by omega) (by omega)
      (by omega) (by omega) (by omega) (by simp) (by decide) hsched
    rw [show (decide (((6 : Nat) : Int) ∈ [(1 : Int), 2, 3, 4, 5] ∧
        60 * 8 + 0 ≤ 60 * 9 + 0 ∧ 60 * 9 + 0 < 60 * 20 + 0)) = false by decide] at hact
    exact ⟨act, hact⟩
  · obtain ⟨act, hact⟩ := c3_scheduled_window (fun _ => .invalid) none none
      3 21 0 8 0 20 0 [1, 2, 3, 4, 5] (by omega) (by omega) (by omega) (by omega)
      (by omega) (by omega) (by omega) (by simp) (by decide) hsched
    rw [show (decide (((3 : Nat) : Int) ∈ [(1 : Int), 2, 3, 4, 5] ∧
        60 * 8 + 0 ≤ 60 * 21 + 0 ∧ 60 * 21 + 0 < 60 * 20 + 0)) = false by decide] at hact
    exact ⟨act, hact⟩

/-! ### Lemmas for the CIDR matcher -/

theorem isJsWs_of_isDig {c : Char} (h : isDig c = true) : isJsWs c = false := by
  by_contra habs
  have hws : isJsWs c = true := by
    cases hval : isJsWs c
    · exact absurd hval habs
    · rfl
  simp only [isJsWs, Bool.or_eq_true, decide_eq_true_eq] at hws
  rcases hws with ((((((h1 | h1) | h1) | h1) | h1) | h1) | h1) | h1 <;>
    subst h1 <;> simp [isDig] at h

theorem ne_of_isDig {c c' : Char} (h : isDig c = true) (h' : isDig c' = false) : c ≠ c' :=
  fun hcc => by rw [hcc, h'] at h; cases h

theorem dropWhile_eq_self_of_none {p : Char → Bool} {l : List Char}
    (h : ∀ c ∈ l, p c = false) : l.dropWhile p = l := by
  cases l with
  | nil => rfl
  | cons c r => simp [List.dropWhile_cons, h c (List.mem_cons_self c r)]

theorem takeWhile_eq_self_of_all {p : Char → Bool} {l : List Char}
    (h : ∀ c ∈ l, p c = true) : l.takeWhile p = l := by
  induction l with
  | nil => rfl
  | cons c r ih =>
    simp [List.takeWhile_cons, h c (List.mem_cons_self c r),
      ih fun x hx => h x (List.mem_cons_of_mem c hx)]

theorem jsTrimL_eq_self {l : List Char} (h : ∀ c ∈ l, isJsWs c = false) : jsTrimL l = l := by
  unfold jsTrimL
  rw [dropWhile_eq_self_of_none h,
    dropWhile_eq_self_of_none (fun c hc => h c (List.mem_reverse.mp hc)),
    List.reverse_reverse]

/-- `parseInt` on a non-empty all-digit string yields its decimal
value. -/
theorem jsParseInt_digits {l : List Char} (hne : l ≠ [])
    (hdig : ∀ c ∈ l, isDig c = true) : jsParseInt l = some (decVal l) := by
  obtain ⟨c, r, rfl⟩ := List.exists_cons_of_ne_nil hne
  have hc : isDig c = true := hdig c (List.mem_cons_self c r)
  have hdrop : (c :: r).dropWhile isJsWs = c :: r :=
    dropWhile_eq_self_of_none fun x hx => isJsWs_of_isDig (hdig x hx)
  have hplus : ((c :: r).head? = some '+') = False := by
    simp only [List.head?_cons, Option.some.injEq, eq_iff_iff, iff_false]
    exact fun hcc => ne_of_isDig hc (by decide) hcc
  have hminus : ((c :: r).head? = some '-') = False := by
    simp only [List.head?_cons, Option.some.injEq, eq_iff_iff, iff_false]
    exact fun hcc => ne_of_isDig hc (by decide) hcc
  have hcore : jsParseIntCore (c :: r) = some (decVal (c :: r)) := by
    have hhex : (((c :: r).head? = some '0') ∧
        (((c :: r).drop 1).head? = some 'x' ∨ ((c :: r).drop 1).head? = some 'X')) = False := by
      simp only [List.head?_cons, List.drop_succ_cons, List.drop_zero, eq_iff_iff, iff_false]
      rintro ⟨-, hx | hx⟩
      · cases r with
        | nil => simp at hx
        | cons c2 r2 =>
          simp only [List.head?_cons, Option.some.injEq] at hx
          exact ne_of_isDig (hdig c2 (by simp)) (by decide) hx
      · cases r with
        | nil => simp at hx
        | cons c2 r2 =>
          simp only [List.head?_cons, Option.some.injEq] at hx
          exact ne_of_isDig (hdig c2 (by simp)) (by decide) hx
    have htake : (c :: r).takeWhile isDig = c :: r := takeWhile_eq_self_of_all hdig
    simp only [jsParseIntCore, hhex, if_false, htake]
    simp
  simp only [jsParseInt, hdrop, hplus, if_false, hminus, hcore]

theorem splitOnChar_of_not_mem {sep : Char} {l : List Char} (h : sep ∉ l) :
    splitOnChar sep l = [l] := by
  induction l with
  | nil => rfl
  | cons c r ih =>
    have hc : c ≠ sep := fun hcc => h (hcc ▸ List.mem_cons_self c r)
    rw [splitOnChar, ih fun hm => h (List.mem_cons_of_mem c hm)]
    simp [hc]

theorem splitOnChar_append {sep : Char} {l r : List Char} (h : sep ∉ l) :
    splitOnChar sep (l ++ sep :: r) = l :: splitOnChar sep r := by
  induction l with
  | nil => simp [splitOnChar]
  | cons c xs ih =>
    have hc : c ≠ sep := fun hcc => h (hcc ▸ List.mem_cons_self c xs)
    have hxs := ih fun hm => h (List.mem_cons_of_mem c hm)
    rw [List.cons_append, splitOnChar, hxs]
    simp [hc]

theorem toInt32_small {x : Int} (h0 : 0 ≤ x) (h1 : x < 2147483648) : toInt32 x = x := by
  unfold toInt32
  split <;> omega

/-- One step of the reduce on a parsed octet and a 31-bit-safe
accumulator. -/
theorem ipStep_parsed {acc v : Int} {b : List Char} (h0 : 0 ≤ acc)
    (h1 : acc < 2147483648) (hv : jsParseInt b = some v) :
    ipStep (some acc) b = some (toInt32 (acc * 256) + v) := by
  unfold ipStep
  rw [hv]
  simp only [numToInt32]
  rw [toInt32_small h0 h1]

/-- The reduce over the four octet strings of a well-formed address
produces its big-endian 32-bit value. -/
theorem ipFold_quad {s1 s2 s3 s4 : List Char} {a1 a2 a3 a4 : Nat}
    (h1 : octet s1 a1) (h2 : octet s2 a2) (h3 : octet s3 a3) (h4 : octet s4 a4) :
    numToUint32 (ipFold [s1, s2, s3, s4]) = dottedQuadVal a1 a2 a3 a4 := by
  obtain ⟨hne1, hdig1, hval1, hle1⟩ := h1
  obtain ⟨hne2, hdig2, hval2, hle2⟩ := h2
  obtain ⟨hne3, hdig3, hval3, hle3⟩ := h3
  obtain ⟨hne4, hdig4, hval4, hle4⟩ := h4
  have p1 : jsParseInt s1 = some ((a1 : Int)) := by
    rw [← hval1]; exact jsParseInt_digits hne1 hdig1
  have p2 : jsParseInt s2 = some ((a2 : Int)) := by
    rw [← hval2]; exact jsParseInt_digits hne2 hdig2
  have p3 : jsParseInt s3 = some ((a3 : Int)) := by
    rw [← hval3]; exact jsParseInt_digits hne3 hdig3
  have p4 : jsParseInt s4 = some ((a4 : Int)) := by
    rw [← hval4]; exact jsParseInt_digits hne4 hdig4
  have hA1 : (a1 : Int) ≤ 255 := by omega
  have hA2 : (a2 : Int) ≤ 255 := by omega
  have hA3 : (a3 : Int) ≤ 255 := by omega
  have hA4 : (a4 : Int) ≤ 255 := by omega
  have st1 : ipStep (some 0) s1 = some ((a1 : Int)) := by
    rw [ipStep_parsed (by norm_num) (by norm_num) p1,
      toInt32_small (by norm_num) (by norm_num)]
    norm_num
  have st2 : ipStep (some ((a1 : Int))) s2 = some ((a1 : Int) * 256 + a2) := by
    rw [ipStep_parsed (by positivity) (by omega) p2,
      toInt32_small (by positivity) (by omega)]
  have st3 : ipStep (some ((a1 : Int) * 256 + a2)) s3 =
      some (((a1 : Int) * 256 + a2) * 256 + a3) := by
    rw [ipStep_parsed (by positivity) (by omega) p3,
      toInt32_small (by positivity) (by omega)]
  have st4 : ipStep (some (((a1 : Int) * 256 + a2) * 256 + a3)) s4 =
      some (toInt32 ((((a1 : Int) * 256 + a2) * 256 + a3) * 256) + a4) :=
    ipStep_parsed (by positivity) (by omega) p4
  have hfold : ipFold [s1, s2, s3, s4] =
      some (toInt32 ((((a1 : Int) * 256 + a2) * 256 + a3) * 256) + a4) := by
    simp only [ipFold, List.foldl_cons, List.foldl_nil]
    rw [st1, st2, st3, st4]
  rw [hfold]
  simp only [numToUint32, dottedQuadVal]
  unfold toInt32
  split_ifs <;> omega

/-- Unsigned 32-bit value of the JS mask `~(2^(32-bits) - 1)` for an
in-range prefix length. -/
theorem jsMask_uint32 {pb : Nat} (hpb : pb ≤ 32) :
    ((jsMask (some (pb : Int))) % 4294967296).toNat = 2 ^ 32 - 2 ^ (32 - pb) := by
  have hk : (32 - (pb : Int)) = ((32 - pb : Nat) : Int) := by omega
  have hknn : ¬ (32 - (pb : Int) ≤ -1075) := by omega
  have hknn2 : ¬ (32 - (pb : Int) < 0) := by omega
  have hk53 : 32 - (pb : Int) ≤ 53 := by omega
  have htn : (32 - (pb : Int)).toNat = 32 - pb := by omega
  have hpow_pos : (1 : Nat) ≤ 2 ^ (32 - pb) := Nat.one_le_two_pow
  have hcast : ((2 : Int) ^ (32 - pb) - 1) = ((2 ^ (32 - pb) - 1 : Nat) : Int) := by
    rw [Nat.cast_sub hpow_pos]
    push_cast
    ring
  have hpow_le : (2 : Nat) ^ (32 - pb) ≤ 2 ^ 32 := Nat.pow_le_pow_right (by omega) (by omega)
  have h32 : (2 : Nat) ^ 32 = 4294967296 := by norm_num
  have hpow_le' : (2 : Nat) ^ (32 - pb) ≤ 4294967296 := h32 ▸ hpow_le
  simp only [jsMask, hknn, hknn2, hk53, if_false, if_true, htn]
  rw [hcast, h32]
  unfold toInt32
  split_ifs <;> omega

/-- ANDing with the high-bit mask `2^32 - 2^k` clears the low `k` bits:
it equals `2^k * (V / 2^k)` for 32-bit `V`. -/
theorem land_mask_eq {V k : Nat} (hk : k ≤ 32) (hV : V < 2 ^ 32) :
    V &&& (2 ^ 32 - 2 ^ k) = 2 ^ k * (V / 2 ^ k) := by
  have hM : (2 : Nat) ^ 32 - 2 ^ k = 2 ^ k * (2 ^ (32 - k) - 1) := by
    rw [Nat.mul_comm, tsub_mul, one_mul, ← pow_add]
    congr 2
    omega
  apply Nat.eq_of_testBit_eq
  intro i
  rw [Nat.testBit_and, hM, Nat.testBit_mul_pow_two, Nat.testBit_mul_pow_two,
    Nat.testBit_two_pow_sub_one, ← Nat.shiftRight_eq_div_pow, Nat.testBit_shiftRight]
  by_cases hik : k ≤ i
  · have hki : k + (i - k) = i := by omega
    rw [hki]
    by_cases hi32 : i < 32
    · have : i - k < 32 - k := by omega
      simp [hik, this]
    · have hbf : V.testBit i = false :=
        Nat.testBit_lt_two_pow (lt_of_lt_of_le hV (Nat.pow_le_pow_right (by omega) (by omega)))
      have : ¬ (i - k < 32 - k) := by omega
      simp [hik, this, hbf]
  · simp [hik]

/-- Equality of the masked values is equality of the top `32 - k`
bits. -/
theorem land_mask_inj {V R k : Nat} (hk : k ≤ 32) (hV : V < 2 ^ 32) (hR : R < 2 ^ 32) :
    (V &&& (2 ^ 32 - 2 ^ k) = R &&& (2 ^ 32 - 2 ^ k)) ↔ V / 2 ^ k = R / 2 ^ k := by
  rw [land_mask_eq hk hV, land_mask_eq hk hR]
  constructor
  · exact fun h => Nat.eq_of_mul_eq_mul_left (Nat.pos_pow_of_pos k (by omega)) h
  · exact fun h => by rw [h]

theorem toInt32_natCast_inj {a b : Nat} (ha : a < 4294967296) (hb : b < 4294967296) :
    (toInt32 (a : Int) = toInt32 (b : Int)) ↔ a = b := by
  unfold toInt32
  omega
theorem not_mem_of_digits {s : List Char} {c : Char}
    (hd : ∀ x ∈ s, isDig x = true) (hc : isDig c = false) : c ∉ s :=
  fun hm => by rw [hd c hm] at hc; cases hc

/-- No character of a well-formed dotted quad is whitespace. -/
theorem no_ws_quad {s1 s2 s3 s4 : List Char}
    (h1 : ∀ c ∈ s1, isDig c = true) (h2 : ∀ c ∈ s2, isDig c = true)
    (h3 : ∀ c ∈ s3, isDig c = true) (h4 : ∀ c ∈ s4, isDig c = true) :
    ∀ c ∈ (s1 ++ ('.' :: (s2 ++ ('.' :: (s3 ++ ('.' :: s4)))))), isJsWs c = false := by
  intro c hc
  rcases List.mem_append.mp hc with h | hc2
  · exact isJsWs_of_isDig (h1 c h)
  rcases List.mem_cons.mp hc2 with h | hc3
  · subst h; decide
  rcases List.mem_append.mp hc3 with h | hc4
  · exact isJsWs_of_isDig (h2 c h)
  rcases List.mem_cons.mp hc4 with h | hc5
  · subst h; decide
  rcases List.mem_append.mp hc5 with h | hc6
  · exact isJsWs_of_isDig (h3 c h)
  rcases List.mem_cons.mp hc6 with h | h
  · subst h; decide
  · exact isJsWs_of_isDig (h4 c h)

/-- `'/'` occurs nowhere in a well-formed dotted quad. -/
theorem no_slash_quad {s1 s2 s3 s4 : List Char}
    (h1 : ∀ c ∈ s1, isDig c = true) (h2 : ∀ c ∈ s2, isDig c = true)
    (h3 : ∀ c ∈ s3, isDig c = true) (h4 : ∀ c ∈ s4, isDig c = true) :
    '/' ∉ (s1 ++ ('.' :: (s2 ++ ('.' :: (s3 ++ ('.' :: s4)))))) := by
  intro hm
  rcases List.mem_append.mp hm with h | hm2
  · exact not_mem_of_digits h1 (by decide) h
  rcases List.mem_cons.mp hm2 with h | hm3
  · cases h
  rcases List.mem_append.mp hm3 with h | hm4
  · exact not_mem_of_digits h2 (by decide) h
  rcases List.mem_cons.mp hm4 with h | hm5
  · cases h
  rcases List.mem_append.mp hm5 with h | hm6
  · exact not_mem_of_digits h3 (by decide) h
  rcases List.mem_cons.mp hm6 with h | h
  · cases h
  · exact not_mem_of_digits h4 (by decide) h

/-- Splitting a well-formed dotted quad on `'.'` recovers the four
octet strings. -/
theorem splitOnChar_quad {s1 s2 s3 s4 : List Char}
    (h1 : ∀ c ∈ s1, isDig c = true) (h2 : ∀ c ∈ s2, isDig c = true)
    (h3 : ∀ c ∈ s3, isDig c = true) (h4 : ∀ c ∈ s4, isDig c = true) :
    splitOnChar '.' (s1 ++ ('.' :: (s2 ++ ('.' :: (s3 ++ ('.' :: s4)))))) =
      [s1, s2, s3, s4] := by
  rw [splitOnChar_append (not_mem_of_digits h1 (by decide)),
    splitOnChar_append (not_mem_of_digits h2 (by decide)),
    splitOnChar_append (not_mem_of_digits h3 (by decide)),
    splitOnChar_of_not_mem (not_mem_of_digits h4 (by decide))]

theorem dottedQuadVal_lt {a b c d : Nat} (ha : a ≤ 255) (hb : b ≤ 255)
    (hc : c ≤ 255) (hd : d ≤ 255) : dottedQuadVal a b c d < 4294967296 := by
  unfold dottedQuadVal
  omega

/-- The whole masked comparison of the matcher agrees with comparing
the top `pb` bits of the two 32-bit values. -/
theorem jsBitAnd_mask_eq {V R pb : Nat} (hpb : pb ≤ 32)
    (hV : V < 4294967296) (hR : R < 4294967296) :
    (jsBitAnd (V : Int) (jsMask (some (pb : Int))) ==
      jsBitAnd (R : Int) (jsMask (some (pb : Int)))) =
      decide (V / 2 ^ (32 - pb) = R / 2 ^ (32 - pb)) := by
  have h32 : (2 : Nat) ^ 32 = 4294967296 := by norm_num
  have hVmod : (((V : Int) % 4294967296)).toNat = V := by omega
  have hRmod : (((R : Int) % 4294967296)).toNat = R := by omega
  have hMlt : 2 ^ 32 - 2 ^ (32 - pb) < 2 ^ 32 := by
    have : (1 : Nat) ≤ 2 ^ (32 - pb) := Nat.one_le_two_pow
    omega
  have hVA : V &&& (2 ^ 32 - 2 ^ (32 - pb)) < 4294967296 :=
    h32 ▸ Nat.and_lt_two_pow V hMlt
  have hRA : R &&& (2 ^ 32 - 2 ^ (32 - pb)) < 4294967296 :=
    h32 ▸ Nat.and_lt_two_pow R hMlt
  have hland := land_mask_inj (k := 32 - pb) (by omega) (h32 ▸ hV) (h32 ▸ hR)
  unfold jsBitAnd
  rw [hVmod, hRmod, jsMask_uint32 hpb]
  by_cases hVR : V / 2 ^ (32 - pb) = R / 2 ^ (32 - pb)
  · have heq : V &&& (2 ^ 32 - 2 ^ (32 - pb)) = R &&& (2 ^ 32 - 2 ^ (32 - pb)) :=
      hland.mpr hVR
    rw [heq]
    simp [hVR]
  · have hne : V &&& (2 ^ 32 - 2 ^ (32 - pb)) ≠ R &&& (2 ^ 32 - 2 ^ (32 - pb)) :=
      fun h => hVR (hland.mp h)
    have hne2 : toInt32 ((V &&& (2 ^ 32 - 2 ^ (32 - pb)) : Nat) : Int) ≠
        toInt32 ((R &&& (2 ^ 32 - 2 ^ (32 - pb)) : Nat) : Int) :=
      fun h => hne ((toInt32_natCast_inj hVA hRA).mp h)
    rw [h32] at hne2
    simp [hVR, hne2]

/-- C7: on a well-formed dotted-quad address and a well-formed CIDR
entry `range/prefixBits` with `prefixBits ≤ 32`, the matcher returns
`true` exactly when address and range agree on the top `prefixBits`
bits of their big-endian 32-bit encodings; an entry without `'/'`
matches by exact string equality after trimming whitespace on both
sides. -/
theorem c7_cidr_matcher_correct :
    (∀ (ip sn : String) (s1 s2 s3 s4 r1 r2 r3 r4 bs : List Char)
        (a1 a2 a3 a4 b1 b2 b3 b4 pb : Nat),
      ip.data = s1 ++ ('.' :: (s2 ++ ('.' :: (s3 ++ ('.' :: s4))))) →
      sn.data = r1 ++ ('.' :: (r2 ++ ('.' :: (r3 ++ ('.' :: (r4 ++ ('/' :: bs))))))) →
      octet s1 a1 → octet s2 a2 → octet s3 a3 → octet s4 a4 →
      octet r1 b1 → octet r2 b2 → octet r3 b3 → octet r4 b4 →
      bs ≠ [] → (∀ c ∈ bs, isDig c = true) → decVal bs = pb → pb ≤ 32 →
      ipInSubnet ip sn =
        decide (dottedQuadVal a1 a2 a3 a4 / 2 ^ (32 - pb) =
                dottedQuadVal b1 b2 b3 b4 / 2 ^ (32 - pb))) ∧
    (∀ ip sn : String, ip ≠ "" → sn ≠ "" → '/' ∉ jsTrimL sn.data →
      ipInSubnet ip sn = (jsTrimL ip.data == jsTrimL sn.data)) := by
  constructor
  · intro ip sn s1 s2 s3 s4 r1 r2 r3 r4 bs a1 a2 a3 a4 b1 b2 b3 b4 pb
      hip hsn ho1 ho2 ho3 ho4 hr1 hr2 hr3 hr4 hbne hbdig hbval hpb
    have hsn' : sn.data =
        (r1 ++ ('.' :: (r2 ++ ('.' :: (r3 ++ ('.' :: r4)))))) ++ '/' :: bs := by
      rw [hsn]; simp [List.append_assoc]
    have hipne : ip.data.isEmpty = false := by
      rw [hip]; simp
    have hsnne : sn.data.isEmpty = false := by
      rw [hsn']; simp
    have hipws : ∀ c ∈ ip.data, isJsWs c = false := by
      rw [hip]; exact no_ws_quad ho1.2.1 ho2.2.1 ho3.2.1 ho4.2.1
    have hsnws : ∀ c ∈ sn.data, isJsWs c = false := by
      rw [hsn]
      intro c hc
      rcases List.mem_append.mp hc with h | hc2
      · exact isJsWs_of_isDig (hr1.2.1 c h)
      rcases List.mem_cons.mp hc2 with h | hc3
      · subst h; decide
      rcases List.mem_append.mp hc3 with h | hc4
      · exact isJsWs_of_isDig (hr2.2.1 c h)
      rcases List.mem_cons.mp hc4 with h | hc5
      · subst h; decide
      rcases List.mem_append.mp hc5 with h | hc6
      · exact isJsWs_of_isDig (hr3.2.1 c h)
      rcases List.mem_cons.mp hc6 with h | hc7
      · subst h; decide
      rcases List.mem_append.mp hc7 with h | hc8
      · exact isJsWs_of_isDig (hr4.2.1 c h)
      rcases List.mem_cons.mp hc8 with h | h
      · subst h; decide
      · exact isJsWs_of_isDig (hbdig c h)
    have hslash : (sn.data).contains '/' = true := by
      rw [hsn']
      apply List.elem_iff.mpr
      simp
    have hsplitsn : splitOnChar '/' sn.data =
        [r1 ++ ('.' :: (r2 ++ ('.' :: (r3 ++ ('.' :: r4))))), bs] := by
      rw [hsn', splitOnChar_append (no_slash_quad hr1.2.1 hr2.2.1 hr3.2.1 hr4.2.1),
        splitOnChar_of_not_mem (not_mem_of_digits hbdig (by decide))]
    have hsplitip : splitOnChar '.' ip.data = [s1, s2, s3, s4] := by
      rw [hip]; exact splitOnChar_quad ho1.2.1 ho2.2.1 ho3.2.1 ho4.2.1
    have hsplitr : splitOnChar '.' (r1 ++ ('.' :: (r2 ++ ('.' :: (r3 ++ ('.' :: r4)))))) =
        [r1, r2, r3, r4] :=
      splitOnChar_quad hr1.2.1 hr2.2.1 hr3.2.1 hr4.2.1
    have hbits : jsParseInt bs = some ((pb : Int)) := by
      rw [← hbval]; exact jsParseInt_digits hbne hbdig
    show ipInSubnetL ip.data sn.data = _
    simp only [ipInSubnetL, hipne, hsnne, Bool.or_self, Bool.false_eq_true, if_false,
      jsTrimL_eq_self hipws, jsTrimL_eq_self hsnws, hslash, not_true_eq_false,
      hsplitsn, List.headD_cons, List.getD_cons_succ, List.getD_cons_zero, hbits,
      hsplitip]
    rw [hsplitr, ipFold_quad ho1 ho2 ho3 ho4, ipFold_quad hr1 hr2 hr3 hr4]
    exact jsBitAnd_mask_eq hpb
      (dottedQuadVal_lt ho1.2.2.2 ho2.2.2.2 ho3.2.2.2 ho4.2.2.2)
      (dottedQuadVal_lt hr1.2.2.2 hr2.2.2.2 hr3.2.2.2 hr4.2.2.2)
  · intro ip sn hipne hsnne hns
    have h1 : ip.data.isEmpty = false :=
      List.isEmpty_eq_false.mpr fun hd => hipne (String.ext (by rw [hd]))
    have h2 : sn.data.isEmpty = false :=
      List.isEmpty_eq_false.mpr fun hd => hsnne (String.ext (by rw [hd]))
    have hcont : (jsTrimL sn.data).contains '/' = false :=
      Bool.eq_false_iff.mpr fun h => hns (List.elem_iff.mp h)
    show ipInSubnetL ip.data sn.data = _
    simp only [ipInSubnetL, h1, h2, Bool.or_self, Bool.false_eq_true, if_false,
      hcont, not_false_eq_true, if_true]
/-- C7 witness: `10.0.0.5` is inside `10.0.0.0/24`, and a bare entry is
matched by trimmed string equality. -/
theorem c7_cidr_matcher_correct_witness :
    ipInSubnet "10.0.0.5" "10.0.0.0/24" = true ∧
    ipInSubnet " 10.0.0.5 " "10.0.0.5" = true := by
  constructor
  · have h := c7_cidr_matcher_correct.1 "10.0.0.5" "10.0.0.0/24"
      ['1', '0'] ['0'] ['0'] ['5'] ['1', '0'] ['0'] ['0'] ['0'] ['2', '4']
      10 0 0 5 10 0 0 0 24 rfl rfl
      (by decide) (by decide) (by decide) (by decide)
      (by decide) (by decide) (by decide) (by decide)
      (by decide) (by decide) (by decide) (by decide)
    rw [h]
    decide
  · have h := c7_cidr_matcher_correct.2 " 10.0.0.5 " "10.0.0.5"
      (by decide) (by decide) (by decide)
    rw [h]
    decide
